import Mathlib

/-! Tube joint visualizer: chain placement, history log and tube solid.

A shallow embedding of `src/TubeJointVisualizer.jsx`.  The component keeps its
state in refs (`sceneRef`, `tubesRef`, `historyRef`, `historyIndexRef`) and in
React state (`tubeType`, `width`, `height`, `thickness`, `length`, `angle`); the
handlers `addTube`, `addJointedTube`, `clearAll`, `undo` and the helper
`saveHistory` are functions on that state.  JavaScript numbers are taken as
elements of an ordered field `K` (the reals in the theorems); `Math.PI`,
`Math.cos` and `Math.sin` are passed as a record `MathLib K`, so every definition
below is a computable function.  The three.js classes the component calls
(`Vector3`, `Euler`, `Quaternion`, `Object3D.add` / `remove`) are modelled by
what they compute on the real numbers.

Materials, lights, the camera and the render loop hold no chain or history data
and are left out, except that the helper objects put into the scene at mount
time are kept as scene entries.
-/

set_option linter.unusedSectionVars false

namespace TubeJoint

/-! ## Numbers and the three.js value types -/

/-- The part of the JavaScript `Math` object the component uses. -/
structure MathLib (K : Type) where
  PI : K
  cos : K → K
  sin : K → K

/-- A `THREE.Vector3`. -/
@[ext]
structure Vector3 (K : Type) where
  x : K
  y : K
  z : K
deriving DecidableEq, Repr

/-- A `THREE.Euler`; the source never sets `order`, so it is the default
`'XYZ'` throughout. -/
@[ext]
structure Euler (K : Type) where
  x : K
  y : K
  z : K
deriving DecidableEq, Repr

/-- A 3x3 rotation matrix, rows first (the upper-left block of a
`THREE.Matrix4`). -/
@[ext]
structure Matrix3 (K : Type) where
  m11 : K
  m12 : K
  m13 : K
  m21 : K
  m22 : K
  m23 : K
  m31 : K
  m32 : K
  m33 : K
deriving DecidableEq, Repr

section Field

variable {K : Type} [LinearOrderedField K]

/-- `Vector3.add`. -/
def Vector3.add (a b : Vector3 K) : Vector3 K :=
  ⟨a.x + b.x, a.y + b.y, a.z + b.z⟩

/-- `Vector3.multiplyScalar`. -/
def Vector3.multiplyScalar (a : Vector3 K) (s : K) : Vector3 K :=
  ⟨a.x * s, a.y * s, a.z * s⟩

/-- Matrix product. -/
def Matrix3.mul (a b : Matrix3 K) : Matrix3 K :=
  ⟨a.m11 * b.m11 + a.m12 * b.m21 + a.m13 * b.m31,
   a.m11 * b.m12 + a.m12 * b.m22 + a.m13 * b.m32,
   a.m11 * b.m13 + a.m12 * b.m23 + a.m13 * b.m33,
   a.m21 * b.m11 + a.m22 * b.m21 + a.m23 * b.m31,
   a.m21 * b.m12 + a.m22 * b.m22 + a.m23 * b.m32,
   a.m21 * b.m13 + a.m22 * b.m23 + a.m23 * b.m33,
   a.m31 * b.m11 + a.m32 * b.m21 + a.m33 * b.m31,
   a.m31 * b.m12 + a.m32 * b.m22 + a.m33 * b.m32,
   a.m31 * b.m13 + a.m32 * b.m23 + a.m33 * b.m33⟩

/-- Matrix applied to a vector. -/
def Matrix3.apply (a : Matrix3 K) (v : Vector3 K) : Vector3 K :=
  ⟨a.m11 * v.x + a.m12 * v.y + a.m13 * v.z,
   a.m21 * v.x + a.m22 * v.y + a.m23 * v.z,
   a.m31 * v.x + a.m32 * v.y + a.m33 * v.z⟩

/-- Rotation about the X axis. -/
def rotX (M : MathLib K) (t : K) : Matrix3 K :=
  ⟨1, 0, 0,
   0, M.cos t, -M.sin t,
   0, M.sin t, M.cos t⟩

/-- Rotation about the Y axis. -/
def rotY (M : MathLib K) (t : K) : Matrix3 K :=
  ⟨M.cos t, 0, M.sin t,
   0, 1, 0,
   -M.sin t, 0, M.cos t⟩

/-- Rotation about the Z axis. -/
def rotZ (M : MathLib K) (t : K) : Matrix3 K :=
  ⟨M.cos t, -M.sin t, 0,
   M.sin t, M.cos t, 0,
   0, 0, 1⟩

/-- The rotation block of `Matrix4.makeRotationFromEuler` for order `'XYZ'`
(three.js: `a = cos x, b = sin x, c = cos y, d = sin y, e = cos z, f = sin z`). -/
def makeRotationFromEuler (M : MathLib K) (r : Euler K) : Matrix3 K :=
  let a := M.cos r.x
  let b := M.sin r.x
  let c := M.cos r.y
  let d := M.sin r.y
  let e := M.cos r.z
  let f := M.sin r.z
  let ae := a * e
  let af := a * f
  let be := b * e
  let bf := b * f
  ⟨c * e, -c * f, d,
   af + be * d, ae - bf * d, -b * c,
   bf - ae * d, be + af * d, a * c⟩

/-- A `THREE.Quaternion`. -/
structure Quaternion (K : Type) where
  x : K
  y : K
  z : K
  w : K

/-- `Quaternion.setFromEuler` for order `'XYZ'`. -/
def Quaternion.setFromEuler (M : MathLib K) (r : Euler K) : Quaternion K :=
  let c1 := M.cos (r.x / 2)
  let c2 := M.cos (r.y / 2)
  let c3 := M.cos (r.z / 2)
  let s1 := M.sin (r.x / 2)
  let s2 := M.sin (r.y / 2)
  let s3 := M.sin (r.z / 2)
  ⟨s1 * c2 * c3 + c1 * s2 * s3,
   c1 * s2 * c3 - s1 * c2 * s3,
   c1 * c2 * s3 + s1 * s2 * c3,
   c1 * c2 * c3 - s1 * s2 * s3⟩

/-- `Vector3.applyQuaternion`: `t = 2 (q.xyz × v)`, result `v + q.w t + q.xyz × t`. -/
def Vector3.applyQuaternion (v : Vector3 K) (q : Quaternion K) : Vector3 K :=
  let tx := 2 * (q.y * v.z - q.z * v.y)
  let ty := 2 * (q.z * v.x - q.x * v.z)
  let tz := 2 * (q.x * v.y - q.y * v.x)
  ⟨v.x + q.w * tx + q.y * tz - q.z * ty,
   v.y + q.w * ty + q.z * tx - q.x * tz,
   v.z + q.w * tz + q.x * ty - q.y * tx⟩

/-- `Vector3.applyEuler`: three.js converts the Euler angles to a quaternion and
applies it. -/
def Vector3.applyEuler (M : MathLib K) (v : Vector3 K) (r : Euler K) : Vector3 K :=
  v.applyQuaternion (Quaternion.setFromEuler M r)

/-! ## The component state -/

/-- The `tubeType` select: `'square'` or `'rectangular'`. -/
inductive TubeType where
  | square
  | rectangular
deriving DecidableEq, Repr

/-- The `userData` record stored on each tube mesh. -/
structure TubeParams (K : Type) where
  width : K
  height : K
  thickness : K
  length : K
  type : TubeType
deriving DecidableEq, Repr

/-- A `THREE.Shape`: the points given to `moveTo` / `lineTo`, and the hole
paths pushed on `shape.holes`. -/
structure Shape (K : Type) where
  points : List (K × K)
  holes : List (List (K × K))
deriving DecidableEq, Repr

/-- The arguments `createTubeGeometry` hands to `new THREE.ExtrudeGeometry`. -/
structure ExtrudeGeometry (K : Type) where
  shape : Shape K
  depth : K
  bevelEnabled : Bool
deriving DecidableEq, Repr

/-- A tube mesh: geometry, `position`, `rotation` and `userData`. -/
structure Tube (K : Type) where
  geometry : ExtrudeGeometry K
  position : Vector3 K
  rotation : Euler K
  userData : TubeParams K
deriving DecidableEq, Repr

/-- The children of the scene: the four helpers added at mount time, tube
meshes, and joint markers (meshes with a `SphereGeometry` of the given radius). -/
inductive SceneObject (K : Type) where
  | ambientLight
  | directionalLight
  | gridHelper
  | axesHelper
  | tube (t : Tube K)
  | joint (radius : K) (position : Vector3 K)
deriving DecidableEq, Repr

/-- One element of a snapshot built by `saveHistory`. -/
structure SnapshotEntry (K : Type) where
  position : Vector3 K
  rotation : Euler K
  params : TubeParams K
deriving DecidableEq, Repr

/-- The refs and React state of the component.  `scene` is `sceneRef.current`
(`none` for `null`), `tubes` is `tubesRef.current`, `history` is
`historyRef.current` and `historyIndex` is `historyIndexRef.current`. -/
structure State (K : Type) where
  scene : Option (List (SceneObject K))
  tubes : List (Tube K)
  history : List (List (SnapshotEntry K))
  historyIndex : Int
  tubeType : TubeType
  width : K
  height : K
  thickness : K
  length : K
  angle : K

/-- The state once the mount effect has run: the scene holds the two lights,
the grid and the axes; the refs and the `useState` defaults are as declared. -/
def State.mounted : State K :=
  { scene := some [.ambientLight, .directionalLight, .gridHelper, .axesHelper]
    tubes := []
    history := []
    historyIndex := -1
    tubeType := .square
    width := 50
    height := 50
    thickness := 5
    length := 200
    angle := 90 }

/-! ## The operations -/

/-- `createTubeGeometry(w, h, t, l)`: the outer rectangle, the hole rectangle
and the extrusion settings.  The source has no check on its arguments. -/
def createTubeGeometry (w h t l : K) : ExtrudeGeometry K :=
  { shape :=
      { points := [(-w / 2, -h / 2), (w / 2, -h / 2), (w / 2, h / 2), (-w / 2, h / 2),
          (-w / 2, -h / 2)]
        holes := [[(-(w / 2 - t), -(h / 2 - t)), (w / 2 - t, -(h / 2 - t)),
          (w / 2 - t, h / 2 - t), (-(w / 2 - t), h / 2 - t),
          (-(w / 2 - t), -(h / 2 - t))]] }
    depth := l
    bevelEnabled := false }

/-- `Array.prototype.slice(0, e)`: a negative `e` counts from the end. -/
def sliceTo {α : Type} (l : List α) (e : Int) : List α :=
  if e < 0 then l.take ((l.length : Int) + e).toNat else l.take e.toNat

/-- The snapshot `saveHistory` builds from `tubesRef.current`. -/
def snapshot (tubes : List (Tube K)) : List (SnapshotEntry K) :=
  tubes.map fun tube => ⟨tube.position, tube.rotation, tube.userData⟩

/-- `saveHistory`: cut the log after the cursor, push the snapshot, advance
the cursor. -/
def saveHistory (s : State K) : State K :=
  { s with
    history := sliceTo s.history (s.historyIndex + 1) ++ [snapshot s.tubes]
    historyIndex := s.historyIndex + 1 }

/-- `addTube`. -/
def addTube (M : MathLib K) (s : State K) : State K :=
  match s.scene with
  | none => s
  | some children =>
    let geometry := createTubeGeometry s.width s.height s.thickness s.length
    let offset : K := (s.tubes.length : K) * 50
    let tube : Tube K :=
      { geometry := geometry
        position := ⟨offset, 0, 0⟩
        rotation := ⟨M.PI / 2, 0, 0⟩
        userData := ⟨s.width, s.height, s.thickness, s.length, s.tubeType⟩ }
    saveHistory { s with scene := some (children ++ [.tube tube]), tubes := s.tubes ++ [tube] }

/-- `addJointedTube`. -/
def addJointedTube (M : MathLib K) (s : State K) : State K :=
  match s.scene, s.tubes.getLast? with
  | none, _ => addTube M s
  | some _, none => addTube M s
  | some children, some parentTube =>
    let geometry := createTubeGeometry s.width s.height s.thickness s.length
    let parentLength := parentTube.userData.length
    let direction :=
      ((⟨0, 0, 1⟩ : Vector3 K).applyEuler M parentTube.rotation).multiplyScalar (parentLength / 2)
    let position := parentTube.position.add direction
    let rotation : Euler K :=
      { parentTube.rotation with y := parentTube.rotation.y + s.angle * M.PI / 180 }
    let newDirection :=
      ((⟨0, 0, 1⟩ : Vector3 K).applyEuler M rotation).multiplyScalar (s.length / 2)
    let position := position.add newDirection
    let joint : SceneObject K :=
      .joint (max s.width s.height * (3 / 10)) (parentTube.position.add direction)
    let tube : Tube K :=
      { geometry := geometry
        position := position
        rotation := rotation
        userData := ⟨s.width, s.height, s.thickness, s.length, s.tubeType⟩ }
    saveHistory
      { s with scene := some (children ++ [joint, .tube tube]), tubes := s.tubes ++ [tube] }

/-- The second loop of `clearAll`: `children.forEach` while `scene.remove`
splices the array being walked, so the element after a removed sphere moves
into the visited slot and is not visited. -/
def removeJoints : List (SceneObject K) → List (SceneObject K)
  | [] => []
  | .joint _ _ :: [] => []
  | .joint _ _ :: next :: rest => next :: removeJoints rest
  | child :: rest => child :: removeJoints rest

/-- `clearAll`.  With `sceneRef.current` null the handler throws on its first
access to the scene, before any ref has changed. -/
def clearAll (s : State K) : State K :=
  match s.scene with
  | none => s
  | some children =>
    let children := s.tubes.foldl (fun acc tube => acc.erase (.tube tube)) children
    { s with
      scene := some (removeJoints children)
      tubes := []
      history := []
      historyIndex := -1 }

/-- `undo`: the cursor moves back when it is positive; nothing is restored. -/
def undo (s : State K) : State K :=
  if s.historyIndex > 0 then { s with historyIndex := s.historyIndex - 1 } else s

/-- What the user (or a handler) can do to the state.  The setters are the
`onChange` handlers of the control panel. -/
inductive Action (K : Type) where
  | setTubeType (t : TubeType)
  | setWidth (v : K)
  | setHeight (v : K)
  | setThickness (v : K)
  | setLength (v : K)
  | setAngle (v : K)
  | addTube
  | addJointedTube
  | saveHistory
  | clearAll
  | undo

/-- One action.  The height input is rendered only while the tube type is
`'rectangular'`, so `setHeight` has no effect otherwise. -/
def step (M : MathLib K) (a : Action K) (s : State K) : State K :=
  match a with
  | .setTubeType t => { s with tubeType := t }
  | .setWidth v => { s with width := v }
  | .setHeight v => if s.tubeType = .rectangular then { s with height := v } else s
  | .setThickness v => { s with thickness := v }
  | .setLength v => { s with length := v }
  | .setAngle v => { s with angle := v }
  | .addTube => addTube M s
  | .addJointedTube => addJointedTube M s
  | .saveHistory => saveHistory s
  | .clearAll => clearAll s
  | .undo => undo s

/-- Run a list of actions, first action first. -/
def run (M : MathLib K) (as : List (Action K)) (s : State K) : State K :=
  as.foldl (fun st a => step M a st) s

/-- The states the component can be in after mounting. -/
inductive Reachable (M : MathLib K) : State K → Prop where
  | mounted : Reachable M State.mounted
  | step (a : Action K) {s : State K} : Reachable M s → Reachable M (step M a s)

/-- The history invariant: an empty log with cursor `-1`, or a cursor inside a
non-empty log. -/
def HistoryInv (s : State K) : Prop :=
  (s.history = [] ∧ s.historyIndex = -1) ∨
    (s.history ≠ [] ∧ 0 ≤ s.historyIndex ∧ s.historyIndex < s.history.length)

/-- The add actions: the two buttons that create a tube. -/
def Action.isAdd : Action K → Bool
  | .addTube => true
  | .addJointedTube => true
  | _ => false

/-- The actions that never touch the log: the parameter setters. -/
def Action.isSetter : Action K → Bool
  | .setTubeType _ => true
  | .setWidth _ => true
  | .setHeight _ => true
  | .setThickness _ => true
  | .setLength _ => true
  | .setAngle _ => true
  | _ => false

/-- The tube `addJointedTube` makes when the chain ends in `parentTube`. -/
def jointedTube (M : MathLib K) (s : State K) (parentTube : Tube K) : Tube K :=
  let direction :=
    ((⟨0, 0, 1⟩ : Vector3 K).applyEuler M parentTube.rotation).multiplyScalar
      (parentTube.userData.length / 2)
  let rotation : Euler K :=
    { parentTube.rotation with y := parentTube.rotation.y + s.angle * M.PI / 180 }
  let newDirection :=
    ((⟨0, 0, 1⟩ : Vector3 K).applyEuler M rotation).multiplyScalar (s.length / 2)
  { geometry := createTubeGeometry s.width s.height s.thickness s.length
    position := (parentTube.position.add direction).add newDirection
    rotation := rotation
    userData := ⟨s.width, s.height, s.thickness, s.length, s.tubeType⟩ }

/-- The joint marker `addJointedTube` puts into the scene. -/
def jointMarker (M : MathLib K) (s : State K) (parentTube : Tube K) : SceneObject K :=
  .joint (max s.width s.height * (3 / 10))
    (parentTube.position.add
      (((⟨0, 0, 1⟩ : Vector3 K).applyEuler M parentTube.rotation).multiplyScalar
        (parentTube.userData.length / 2)))

/-! ## The tube solid -/

/-- A triangle of a mesh, by its three corner positions in winding order. -/
structure Triangle (K : Type) where
  a : Vector3 K
  b : Vector3 K
  c : Vector3 K
deriving DecidableEq, Repr

/-- Modelled from the spec: `THREE.ExtrudeGeometry` is library code outside the
sources.  The vertices of the extruded profile: the four outer corners and the
four hole corners (the closing point of each path dropped) at `z = 0`, then
the same eight at `z = depth`. -/
def ExtrudeGeometry.vertices (g : ExtrudeGeometry K) : List (Vector3 K) :=
  let contour := g.shape.points.take 4 ++ (g.shape.holes.headD []).take 4
  contour.map (fun p => ⟨p.1, p.2, 0⟩) ++ contour.map (fun p => ⟨p.1, p.2, g.depth⟩)

/-- Modelled from the spec: the faces of the solid of section 4.2, as indices
into `ExtrudeGeometry.vertices` (outer corner `i` is `i`, hole corner `i` is
`4 + i`, the far layer adds `8`).  For each of the four sides: two triangles of
the far cap and two of the near cap (wound the other way), the outer side
wall, and the hole side wall (wound the other way). -/
def solidFaces : List (Fin 16 × Fin 16 × Fin 16) :=
  (List.finRange 4).flatMap fun i : Fin 4 =>
    let o : Fin 16 := ⟨i.val, by omega⟩
    let o1 : Fin 16 := ⟨(i.val + 1) % 4, by omega⟩
    let h : Fin 16 := ⟨4 + i.val, by omega⟩
    let h1 : Fin 16 := ⟨4 + (i.val + 1) % 4, by omega⟩
    [ (o + 8, o1 + 8, h1 + 8), (o + 8, h1 + 8, h + 8),
      (o1, o, h1), (h1, o, h),
      (o, o1, o1 + 8), (o, o1 + 8, o + 8),
      (h, h1 + 8, h1), (h, h + 8, h1 + 8) ]

/-- The position of vertex `i`. -/
def ExtrudeGeometry.vertex (g : ExtrudeGeometry K) (i : Fin 16) : Vector3 K :=
  g.vertices.getD i.val ⟨0, 0, 0⟩

/-- Modelled from the spec: the triangle mesh of the extruded tube, in the
local frame of the geometry. -/
def ExtrudeGeometry.mesh (g : ExtrudeGeometry K) : List (Triangle K) :=
  solidFaces.map fun f => ⟨g.vertex f.1, g.vertex f.2.1, g.vertex f.2.2⟩

/-- The three edges of a triangle, in winding order. -/
def Triangle.edges (t : Triangle K) : List (Vector3 K × Vector3 K) :=
  [(t.a, t.b), (t.b, t.c), (t.c, t.a)]

/-- Whether the triangle has the directed edge from `p` to `q`. -/
def Triangle.hasDirectedEdge (t : Triangle K) (p q : Vector3 K) : Bool :=
  decide ((p, q) ∈ t.edges)

/-- Whether the triangle has the edge between `p` and `q`, in either direction. -/
def Triangle.hasEdge (t : Triangle K) (p q : Vector3 K) : Bool :=
  t.hasDirectedEdge p q || t.hasDirectedEdge q p

/-- The mesh is closed: every edge of every triangle lies on exactly two
triangles. -/
def IsClosed (m : List (Triangle K)) : Prop :=
  ∀ t ∈ m, ∀ e ∈ t.edges, m.countP (fun u => u.hasEdge e.1 e.2) = 2

instance (m : List (Triangle K)) : Decidable (IsClosed m) := by
  unfold IsClosed
  infer_instance

/-- The mesh is consistently wound: every directed edge is used by exactly one
triangle, and so is its reverse. -/
def IsConsistentlyWound (m : List (Triangle K)) : Prop :=
  ∀ t ∈ m, ∀ e ∈ t.edges,
    m.countP (fun u => u.hasDirectedEdge e.1 e.2) = 1 ∧
      m.countP (fun u => u.hasDirectedEdge e.2 e.1) = 1

instance (m : List (Triangle K)) : Decidable (IsConsistentlyWound m) := by
  unfold IsConsistentlyWound
  infer_instance

/-- Six times the signed volume of the tetrahedron spanned by the origin and
the triangle: the triple product `a . (b x c)`. -/
def Triangle.det (t : Triangle K) : K :=
  t.a.x * (t.b.y * t.c.z - t.b.z * t.c.y)
    - t.a.y * (t.b.x * t.c.z - t.b.z * t.c.x)
    + t.a.z * (t.b.x * t.c.y - t.b.y * t.c.x)

/-- The signed volume enclosed by a mesh. -/
def signedVolume (m : List (Triangle K)) : K :=
  (m.map Triangle.det).sum / 6

/-- The centre of the end cap at height `z`: the mean of the eight profile
corners at that height. -/
def ExtrudeGeometry.capCentre (g : ExtrudeGeometry K) (z : K) : Vector3 K :=
  let contour := g.shape.points.take 4 ++ (g.shape.holes.headD []).take 4
  ⟨(contour.map Prod.fst).sum / 8, (contour.map Prod.snd).sum / 8, z⟩

/-- A point of the tube's local frame in world coordinates: the mesh is placed
by its `position` and `rotation` (scale 1). -/
def Tube.localToWorld (M : MathLib K) (t : Tube K) (p : Vector3 K) : Vector3 K :=
  t.position.add (p.applyEuler M t.rotation)

/-- The world position of the centre of the tube's near end cap.  Modelled
from the spec (section 4.2, as `THREE.ExtrudeGeometry` does): the extrusion
runs from local `z = 0` to `z = depth`, so the near cap is at `z = 0`. -/
def Tube.nearCapCentre (M : MathLib K) (t : Tube K) : Vector3 K :=
  t.localToWorld M (t.geometry.capCentre 0)

/-- The world position of the centre of the tube's far end cap, at local
`z = depth`. -/
def Tube.farCapCentre (M : MathLib K) (t : Tube K) : Vector3 K :=
  t.localToWorld M (t.geometry.capCentre t.geometry.depth)

/-! ### Indexing of the solid, used to count edges -/

/-- The four values a profile coordinate takes, in increasing order: the outer
wall, the hole wall, and their mirror images. -/
def coordLevel (size t : K) : Fin 4 → K :=
  ![-size / 2, -(size / 2 - t), size / 2 - t, size / 2]

/-- The level of the `x` coordinate of each vertex. -/
def xLevel : Fin 16 → Fin 4 := ![0, 3, 3, 0, 1, 2, 2, 1, 0, 3, 3, 0, 1, 2, 2, 1]

/-- The level of the `y` coordinate of each vertex. -/
def yLevel : Fin 16 → Fin 4 := ![0, 0, 3, 3, 1, 1, 2, 2, 0, 0, 3, 3, 1, 1, 2, 2]

/-- Whether the vertex lies in the far layer. -/
def farLayer : Fin 16 → Bool := fun i => decide (8 ≤ i.val)

/-- The three directed edges of a face. -/
def faceEdges (f : Fin 16 × Fin 16 × Fin 16) : List (Fin 16 × Fin 16) :=
  [(f.1, f.2.1), (f.2.1, f.2.2), (f.2.2, f.1)]

/-- A directed edge as one number: `16 * from + to`. -/
def edgeCode (e : Fin 16 × Fin 16) : Nat := 16 * e.1.val + e.2.val

/-- The directed edges of all faces, coded. -/
def edgeCodes : List Nat := (solidFaces.flatMap faceEdges).map edgeCode

end Field

/-! ## The history log -/

section Theorems

variable {K : Type} [LinearOrderedField K]

theorem sliceTo_of_nonneg {α : Type} (l : List α) (e : Int) (he : 0 ≤ e) :
    sliceTo l e = l.take e.toNat := by
  unfold sliceTo
  rw [if_neg (not_lt.mpr he)]

theorem saveHistory_history (s : State K) (h : -1 ≤ s.historyIndex) :
    (saveHistory s).history
      = s.history.take (s.historyIndex + 1).toNat ++ [snapshot s.tubes] := by
  simp only [saveHistory]
  rw [sliceTo_of_nonneg _ _ (by omega)]

theorem historyInv_lower (s : State K) (h : HistoryInv s) : -1 ≤ s.historyIndex := by
  rcases h with ⟨_, h⟩ | ⟨_, h, _⟩ <;> omega

theorem historyInv_upper (s : State K) (h : HistoryInv s) :
    s.historyIndex + 1 ≤ s.history.length := by
  rcases h with ⟨h1, h2⟩ | ⟨_, _, h⟩
  · rw [h1, h2]; simp
  · omega

theorem saveHistory_length (s : State K) (h : HistoryInv s) :
    ((saveHistory s).history.length : Int) = s.historyIndex + 2 := by
  have h1 := historyInv_lower s h
  have h2 := historyInv_upper s h
  rw [saveHistory_history s h1]
  simp only [List.length_append, List.length_take, List.length_singleton]
  omega

theorem saveHistory_inv (s : State K) (h : HistoryInv s) : HistoryInv (saveHistory s) := by
  have h1 := historyInv_lower s h
  have h3 := saveHistory_length s h
  right
  refine ⟨?_, ?_, ?_⟩
  · simp [saveHistory]
  · simp only [saveHistory]; omega
  · rw [h3]; simp only [saveHistory]; omega

theorem undo_inv (s : State K) (h : HistoryInv s) : HistoryInv (undo s) := by
  unfold undo
  split
  · rename_i hpos
    rcases h with ⟨_, h2⟩ | ⟨h1, _, h3⟩
    · omega
    · right
      exact ⟨h1, by simp only; omega, by simp only; omega⟩
  · exact h

theorem clearAll_history (s : State K) (children : List (SceneObject K))
    (hs : s.scene = some children) :
    (clearAll s).history = [] ∧ (clearAll s).historyIndex = -1 := by
  simp [clearAll, hs]

theorem addTube_eq (M : MathLib K) (s : State K) (children : List (SceneObject K))
    (hs : s.scene = some children) :
    addTube M s = saveHistory
      { s with
        scene := some (children ++ [.tube
          { geometry := createTubeGeometry s.width s.height s.thickness s.length
            position := ⟨(s.tubes.length : K) * 50, 0, 0⟩
            rotation := ⟨M.PI / 2, 0, 0⟩
            userData := ⟨s.width, s.height, s.thickness, s.length, s.tubeType⟩ }])
        tubes := s.tubes ++ [
          { geometry := createTubeGeometry s.width s.height s.thickness s.length
            position := ⟨(s.tubes.length : K) * 50, 0, 0⟩
            rotation := ⟨M.PI / 2, 0, 0⟩
            userData := ⟨s.width, s.height, s.thickness, s.length, s.tubeType⟩ }] } := by
  simp [addTube, hs]

theorem addJointedTube_of_empty (M : MathLib K) (s : State K) (ht : s.tubes = []) :
    addJointedTube M s = addTube M s := by
  unfold addJointedTube
  rw [ht]
  cases s.scene <;> rfl

theorem addJointedTube_eq (M : MathLib K) (s : State K) (children : List (SceneObject K))
    (parentTube : Tube K) (hs : s.scene = some children)
    (hp : s.tubes.getLast? = some parentTube) :
    addJointedTube M s = saveHistory
      { s with
        scene := some (children ++ [jointMarker M s parentTube, .tube (jointedTube M s parentTube)])
        tubes := s.tubes ++ [jointedTube M s parentTube] } := by
  simp [addJointedTube, hs, hp, jointedTube, jointMarker]

theorem addTube_inv (M : MathLib K) (s : State K) (h : HistoryInv s) :
    HistoryInv (addTube M s) := by
  cases hs : s.scene with
  | none => simpa [addTube, hs] using h
  | some children =>
    rw [addTube_eq M s children hs]
    exact saveHistory_inv _ h

theorem addJointedTube_inv (M : MathLib K) (s : State K) (h : HistoryInv s) :
    HistoryInv (addJointedTube M s) := by
  cases hs : s.scene with
  | none =>
    have : addJointedTube M s = addTube M s := by simp [addJointedTube, hs]
    rw [this]; exact addTube_inv M s h
  | some children =>
    cases hp : s.tubes.getLast? with
    | none =>
      have : addJointedTube M s = addTube M s := by simp [addJointedTube, hs, hp]
      rw [this]; exact addTube_inv M s h
    | some parentTube =>
      rw [addJointedTube_eq M s children parentTube hs hp]
      exact saveHistory_inv _ h

theorem clearAll_inv (s : State K) (h : HistoryInv s) : HistoryInv (clearAll s) := by
  cases hs : s.scene with
  | none => simpa [clearAll, hs] using h
  | some children => exact Or.inl (clearAll_history s children hs)

theorem step_inv (M : MathLib K) (a : Action K) (s : State K) (h : HistoryInv s) :
    HistoryInv (step M a s) := by
  cases a with
  | setHeight v =>
    simp only [step]
    split
    · exact h
    · exact h
  | addTube => exact addTube_inv M s h
  | addJointedTube => exact addJointedTube_inv M s h
  | saveHistory => exact saveHistory_inv s h
  | clearAll => exact clearAll_inv s h
  | undo => exact undo_inv s h
  | _ => exact h

theorem addTube_scene (M : MathLib K) (s : State K) (h : s.scene.isSome) :
    (addTube M s).scene.isSome := by
  obtain ⟨children, hs⟩ := Option.isSome_iff_exists.mp h
  rw [addTube_eq M s children hs]
  rfl

theorem addJointedTube_scene (M : MathLib K) (s : State K) (h : s.scene.isSome) :
    (addJointedTube M s).scene.isSome := by
  obtain ⟨children, hs⟩ := Option.isSome_iff_exists.mp h
  cases hp : s.tubes.getLast? with
  | none =>
    have : addJointedTube M s = addTube M s := by simp [addJointedTube, hs, hp]
    rw [this]; exact addTube_scene M s h
  | some parentTube =>
    rw [addJointedTube_eq M s children parentTube hs hp]
    rfl

theorem step_scene (M : MathLib K) (a : Action K) (s : State K) (h : s.scene.isSome) :
    (step M a s).scene.isSome := by
  cases a with
  | setHeight v =>
    simp only [step]
    split
    · exact h
    · exact h
  | addTube => exact addTube_scene M s h
  | addJointedTube => exact addJointedTube_scene M s h
  | saveHistory => exact h
  | clearAll =>
    obtain ⟨children, hs⟩ := Option.isSome_iff_exists.mp h
    simp [step, clearAll, hs]
  | undo =>
    simp only [step, undo]
    split
    · exact h
    · exact h
  | _ => exact h

theorem reachable_scene (M : MathLib K) (s : State K) (h : Reachable M s) :
    s.scene.isSome := by
  induction h with
  | mounted => rfl
  | step a _ ih => exact step_scene M a _ ih

theorem reachable_inv (M : MathLib K) (s : State K) (h : Reachable M s) : HistoryInv s := by
  induction h with
  | mounted => exact Or.inl ⟨rfl, rfl⟩
  | step a _ ih => exact step_inv M a _ ih

/-- C7: in every state reachable after mounting, the log is empty with cursor
`-1` or the cursor is a valid index of a non-empty log; and `clearAll` leaves
the empty log with cursor `-1`. -/
theorem history_invariant (M : MathLib K) (s : State K) (h : Reachable M s) :
    ((s.history = [] ∧ s.historyIndex = -1) ∨
      (s.history ≠ [] ∧ 0 ≤ s.historyIndex ∧ s.historyIndex < s.history.length)) ∧
    (clearAll s).history = [] ∧ (clearAll s).historyIndex = -1 := by
  obtain ⟨children, hs⟩ := Option.isSome_iff_exists.mp (reachable_scene M s h)
  exact ⟨reachable_inv M s h, clearAll_history s children hs⟩

/-- C1: in a reachable state `saveHistory` keeps the first `cursor + 1` entries
of the log, appends the new snapshot and moves the cursor to the last index;
after `undo` then `saveHistory` the log ends at the cursor. -/
theorem saveHistory_truncates (M : MathLib K) (s : State K) (h : Reachable M s) :
    (saveHistory s).history
        = s.history.take (s.historyIndex + 1).toNat ++ [snapshot s.tubes] ∧
      (saveHistory s).historyIndex = ((saveHistory s).history.length : Int) - 1 ∧
      (saveHistory (undo s)).history
        = s.history.take ((undo s).historyIndex + 1).toNat ++ [snapshot s.tubes] ∧
      ((saveHistory (undo s)).history.length : Int)
        = (saveHistory (undo s)).historyIndex + 1 := by
  have hinv := reachable_inv M s h
  have hu := undo_inv s hinv
  have hut : (undo s).tubes = s.tubes := by unfold undo; split <;> rfl
  have huh : (undo s).history = s.history := by unfold undo; split <;> rfl
  refine ⟨saveHistory_history s (historyInv_lower s hinv), ?_, ?_, ?_⟩
  · rw [saveHistory_length s hinv]; simp only [saveHistory]; omega
  · rw [saveHistory_history _ (historyInv_lower _ hu), hut, huh]
  · rw [saveHistory_length _ hu]; simp only [saveHistory]; omega

/-- Witness for C1: the state after two `addTube` and one `undo`. -/
theorem saveHistory_truncates_witness :
    Reachable (⟨Real.pi, Real.cos, Real.sin⟩ : MathLib ℝ)
        (step ⟨Real.pi, Real.cos, Real.sin⟩ .undo
          (step ⟨Real.pi, Real.cos, Real.sin⟩ .addTube
            (step ⟨Real.pi, Real.cos, Real.sin⟩ .addTube State.mounted))) ∧
      ((saveHistory (undo (step (⟨Real.pi, Real.cos, Real.sin⟩ : MathLib ℝ) .undo
          (step ⟨Real.pi, Real.cos, Real.sin⟩ .addTube
            (step ⟨Real.pi, Real.cos, Real.sin⟩ .addTube State.mounted))))).history.length : Int)
        = (saveHistory (undo (step (⟨Real.pi, Real.cos, Real.sin⟩ : MathLib ℝ) .undo
          (step ⟨Real.pi, Real.cos, Real.sin⟩ .addTube
            (step ⟨Real.pi, Real.cos, Real.sin⟩ .addTube State.mounted))))).historyIndex + 1 :=
  ⟨.step _ (.step _ (.step _ .mounted)),
    (saveHistory_truncates _ _ (.step _ (.step _ (.step _ .mounted)))).2.2.2⟩

/-- Witness for C7: the state after `addTube`, `addJointedTube` and `undo`. -/
theorem history_invariant_witness :
    Reachable (⟨Real.pi, Real.cos, Real.sin⟩ : MathLib ℝ)
        (step ⟨Real.pi, Real.cos, Real.sin⟩ .undo
          (step ⟨Real.pi, Real.cos, Real.sin⟩ .addJointedTube
            (step ⟨Real.pi, Real.cos, Real.sin⟩ .addTube State.mounted))) ∧
      (clearAll (step (⟨Real.pi, Real.cos, Real.sin⟩ : MathLib ℝ) .undo
          (step ⟨Real.pi, Real.cos, Real.sin⟩ .addJointedTube
            (step ⟨Real.pi, Real.cos, Real.sin⟩ .addTube State.mounted)))).historyIndex = -1 :=
  ⟨.step _ (.step _ (.step _ .mounted)),
    (history_invariant _ _ (.step _ (.step _ (.step _ .mounted)))).2.2⟩

/-! ### Undo after `N` additions -/

theorem undo_history (s : State K) : (undo s).history = s.history := by
  unfold undo; split <;> rfl

theorem undo_iterate_history (n : Nat) (s : State K) :
    (undo^[n] s).history = s.history := by
  induction n generalizing s with
  | zero => rfl
  | succ n ih => rw [Function.iterate_succ_apply, ih, undo_history]

theorem undo_iterate_index (n : Nat) (s : State K) (h : s.historyIndex ≤ n) :
    (undo^[n] s).historyIndex ≤ 0 := by
  induction n generalizing s with
  | zero => simpa using h
  | succ n ih =>
    rw [Function.iterate_succ_apply]
    apply ih
    unfold undo
    split
    · simp only; push_cast at h; omega
    · rename_i hneg; omega

theorem undo_of_not_pos (s : State K) (h : ¬ s.historyIndex > 0) : undo s = s := by
  unfold undo
  rw [if_neg h]

theorem step_setter (M : MathLib K) (a : Action K) (s : State K) (ha : a.isSetter = true) :
    (step M a s).scene = s.scene ∧ (step M a s).history = s.history ∧
      (step M a s).historyIndex = s.historyIndex := by
  cases a with
  | setHeight v =>
    simp only [step]
    split <;> exact ⟨rfl, rfl, rfl⟩
  | addTube => simp [Action.isSetter] at ha
  | addJointedTube => simp [Action.isSetter] at ha
  | saveHistory => simp [Action.isSetter] at ha
  | clearAll => simp [Action.isSetter] at ha
  | undo => simp [Action.isSetter] at ha
  | _ => exact ⟨rfl, rfl, rfl⟩

theorem saveHistory_full (s : State K) (h : s.historyIndex + 1 = s.history.length) :
    (saveHistory s).history = s.history ++ [snapshot s.tubes] ∧
      (saveHistory s).historyIndex = s.historyIndex + 1 := by
  refine ⟨?_, rfl⟩
  rw [saveHistory_history s (by omega), h]
  simp

theorem step_add (M : MathLib K) (a : Action K) (s : State K) (ha : a.isAdd = true)
    (hs : s.scene.isSome) (h : s.historyIndex + 1 = s.history.length) :
    (step M a s).scene.isSome ∧ (step M a s).history.length = s.history.length + 1 ∧
      (step M a s).historyIndex = s.historyIndex + 1 := by
  refine ⟨step_scene M a s hs, ?_⟩
  obtain ⟨children, hc⟩ := Option.isSome_iff_exists.mp hs
  have key : ∀ t : State K, t.history = s.history → t.historyIndex = s.historyIndex →
      (saveHistory t).history.length = s.history.length + 1 ∧
        (saveHistory t).historyIndex = s.historyIndex + 1 := by
    intro t h1 h2
    have := saveHistory_full t (by rw [h1, h2]; exact h)
    rw [this.1, this.2, h1, h2]
    simp
  have hT : (addTube M s).history.length = s.history.length + 1 ∧
      (addTube M s).historyIndex = s.historyIndex + 1 := by
    rw [addTube_eq M s children hc]
    exact key _ rfl rfl
  cases a with
  | addTube => exact hT
  | addJointedTube =>
    simp only [step]
    cases hp : s.tubes.getLast? with
    | none =>
      have : addJointedTube M s = addTube M s := by simp [addJointedTube, hc, hp]
      rw [this]; exact hT
    | some parentTube =>
      rw [addJointedTube_eq M s children parentTube hc hp]
      exact key _ rfl rfl
  | _ => simp [Action.isAdd] at ha

theorem run_adds (M : MathLib K) (acts : List (Action K))
    (hacts : ∀ a ∈ acts, a.isAdd = true ∨ a.isSetter = true) (s : State K)
    (hs : s.scene.isSome) (h : s.historyIndex + 1 = s.history.length) :
    (run M acts s).history.length = s.history.length + acts.countP Action.isAdd ∧
      (run M acts s).historyIndex = s.historyIndex + acts.countP Action.isAdd := by
  induction acts generalizing s with
  | nil => simp [run]
  | cons a rest ih =>
    have hrest : ∀ b ∈ rest, b.isAdd = true ∨ b.isSetter = true :=
      fun b hb => hacts b (List.mem_cons_of_mem _ hb)
    have hrun : run M (a :: rest) s = run M rest (step M a s) := rfl
    rw [hrun]
    cases hadd : a.isAdd with
    | true =>
      obtain ⟨h1, h2, h3⟩ := step_add M a s hadd hs h
      obtain ⟨i1, i2⟩ := ih hrest (step M a s) h1 (by rw [h2, h3]; push_cast; omega)
      rw [i1, i2, h2, h3, List.countP_cons_of_pos _ _ hadd]
      constructor
      · omega
      · push_cast; omega
    | false =>
      have hset : a.isSetter = true := by
        rcases hacts a (List.mem_cons_self _ _) with h' | h'
        · rw [hadd] at h'; cases h'
        · exact h'
      obtain ⟨h1, h2, h3⟩ := step_setter M a s hset
      obtain ⟨i1, i2⟩ := ih hrest (step M a s) (by rw [h1]; exact hs) (by rw [h2, h3]; exact h)
      rw [i1, i2, h2, h3, List.countP_cons_of_neg _ _ (by simp [hadd])]
      exact ⟨rfl, rfl⟩

/-- C6: from an empty history, after a run of add actions (with any parameter
changes in between) containing `N` additions the log has `N` snapshots and the
cursor is `N - 1`; after `N` calls of `undo` the cursor is not positive and the
next `undo` changes nothing. -/
theorem undo_after_adds (M : MathLib K) (acts : List (Action K))
    (hacts : ∀ a ∈ acts, a.isAdd = true ∨ a.isSetter = true) (s : State K)
    (hs : s.scene.isSome) (hh : s.history = []) (hi : s.historyIndex = -1) :
    (run M acts s).history.length = acts.countP Action.isAdd ∧
      (run M acts s).historyIndex = (acts.countP Action.isAdd : Int) - 1 ∧
      ¬ (undo^[acts.countP Action.isAdd] (run M acts s)).historyIndex > 0 ∧
      undo (undo^[acts.countP Action.isAdd] (run M acts s))
        = undo^[acts.countP Action.isAdd] (run M acts s) := by
  obtain ⟨h1, h2⟩ := run_adds M acts hacts s hs (by rw [hh, hi]; rfl)
  rw [hh] at h1
  rw [hi] at h2
  have h3 := undo_iterate_index (acts.countP Action.isAdd) (run M acts s) (by rw [h2]; omega)
  refine ⟨by simpa using h1, by rw [h2]; omega, by omega, undo_of_not_pos _ (by omega)⟩

/-- Witness for C6: three additions with a change of angle in between. -/
theorem undo_after_adds_witness :
    (undo^[3] (run (⟨Real.pi, Real.cos, Real.sin⟩ : MathLib ℝ)
        [.addTube, .setAngle 45, .addJointedTube, .addJointedTube] State.mounted)).historyIndex
      ≤ 0 := by
  have h := (undo_after_adds (⟨Real.pi, Real.cos, Real.sin⟩ : MathLib ℝ)
    [.addTube, .setAngle 45, .addJointedTube, .addJointedTube]
    (by simp [Action.isAdd, Action.isSetter]) State.mounted rfl rfl rfl).2.2.1
  simpa [Action.isAdd] using h

/-- C8: with a mounted scene and an empty chain `addJointedTube` does what
`addTube` does: it appends one tube at the origin with rotation `(pi/2, 0, 0)`,
adds that tube and nothing else to the scene, and records one snapshot. -/
theorem addJointedTube_empty_chain (M : MathLib K) (s : State K)
    (children : List (SceneObject K)) (hs : s.scene = some children) (ht : s.tubes = []) :
    addJointedTube M s = addTube M s ∧
      (addJointedTube M s).tubes =
        [{ geometry := createTubeGeometry s.width s.height s.thickness s.length
           position := ⟨0, 0, 0⟩
           rotation := ⟨M.PI / 2, 0, 0⟩
           userData := ⟨s.width, s.height, s.thickness, s.length, s.tubeType⟩ }] ∧
      (addJointedTube M s).scene = some (children ++ [.tube
          { geometry := createTubeGeometry s.width s.height s.thickness s.length
            position := ⟨0, 0, 0⟩
            rotation := ⟨M.PI / 2, 0, 0⟩
            userData := ⟨s.width, s.height, s.thickness, s.length, s.tubeType⟩ }]) ∧
      (addJointedTube M s).history = sliceTo s.history (s.historyIndex + 1) ++
        [[⟨⟨0, 0, 0⟩, ⟨M.PI / 2, 0, 0⟩,
          ⟨s.width, s.height, s.thickness, s.length, s.tubeType⟩⟩]] ∧
      (addJointedTube M s).historyIndex = s.historyIndex + 1 := by
  rw [addJointedTube_of_empty M s ht, addTube_eq M s children hs]
  simp [saveHistory, snapshot, ht]

/-- Witness for C8: the mounted state with angle 90 and length 150. -/
theorem addJointedTube_empty_chain_witness :
    addJointedTube (⟨Real.pi, Real.cos, Real.sin⟩ : MathLib ℝ)
        (step ⟨Real.pi, Real.cos, Real.sin⟩ (.setLength 150) State.mounted)
      = addTube ⟨Real.pi, Real.cos, Real.sin⟩
        (step ⟨Real.pi, Real.cos, Real.sin⟩ (.setLength 150) State.mounted) :=
  (addJointedTube_empty_chain _ _ _ rfl rfl).1

/-! ## The tube solid -/

theorem vertex_createTubeGeometry (w h t l : K) (i : Fin 16) :
    (createTubeGeometry w h t l).vertex i =
      ⟨coordLevel w t (xLevel i), coordLevel h t (yLevel i), if farLayer i then l else 0⟩ := by
  fin_cases i <;> rfl

theorem coordLevel_injective (size t : K) (ht : 0 < t) (hs : t < size / 2) (a b : Fin 4)
    (hab : coordLevel size t a = coordLevel size t b) : a = b := by
  fin_cases a <;> fin_cases b <;>
    first
    | rfl
    | (exfalso
       simp only [coordLevel, Matrix.cons_val_zero, Matrix.cons_val_one, Matrix.head_cons,
         Matrix.cons_val_two, Matrix.tail_cons, Matrix.cons_val_three, Fin.zero_eta, Fin.mk_one,
         Fin.reduceFinMk] at hab
       linarith)

theorem levels_injective :
    ∀ i j : Fin 16, xLevel i = xLevel j → yLevel i = yLevel j → farLayer i = farLayer j → i = j := by
  decide

theorem vertex_injective (w h t l : K) (ht : 0 < t) (hw : t < w / 2) (hh : t < h / 2)
    (hl : 0 < l) (i j : Fin 16)
    (hij : (createTubeGeometry w h t l).vertex i = (createTubeGeometry w h t l).vertex j) :
    i = j := by
  rw [vertex_createTubeGeometry, vertex_createTubeGeometry, Vector3.mk.injEq] at hij
  obtain ⟨h1, h2, h3⟩ := hij
  refine levels_injective i j (coordLevel_injective w t ht hw _ _ h1)
    (coordLevel_injective h t ht hh _ _ h2) ?_
  cases hi : farLayer i <;> cases hj : farLayer j <;> simp [hi, hj] at h3 ⊢ <;> linarith

theorem edgeCodes_once :
    (edgeCodes.all fun c =>
      edgeCodes.count c == 1 && edgeCodes.count (16 * (c % 16) + c / 16) == 1) = true := by
  decide!

theorem solidFaces_distinct :
    (solidFaces.all fun f =>
      decide (f.1.val ≠ f.2.1.val) && decide (f.2.1.val ≠ f.2.2.val) &&
        decide (f.2.2.val ≠ f.1.val)) = true := by
  decide!

theorem edgeCode_injective : Function.Injective edgeCode := by
  rintro ⟨a, b⟩ ⟨c, d⟩ h
  simp only [edgeCode] at h
  have h1 : a.val = c.val := by omega
  have h2 : b.val = d.val := by omega
  rw [Fin.ext h1, Fin.ext h2]

theorem edgeCode_swap (e : Fin 16 × Fin 16) :
    16 * (edgeCode e % 16) + edgeCode e / 16 = edgeCode (e.2, e.1) := by
  obtain ⟨a, b⟩ := e
  simp only [edgeCode]
  omega

theorem countP_faceEdges (F : List (Fin 16 × Fin 16 × Fin 16))
    (hF : ∀ f ∈ F, (faceEdges f).Nodup) (e : Fin 16 × Fin 16) :
    F.countP (fun f => decide (e ∈ faceEdges f))
      = ((F.flatMap faceEdges).map edgeCode).count (edgeCode e) := by
  induction F with
  | nil => rfl
  | cons f rest ih =>
    have hf := hF f (List.mem_cons_self _ _)
    rw [List.countP_cons, List.flatMap_cons, List.map_append, List.count_append,
      ih (fun g hg => hF g (List.mem_cons_of_mem _ hg)), Nat.add_comm]
    congr 1
    rw [List.count_map_of_injective _ _ edgeCode_injective]
    rw [List.count_eq_of_nodup hf]
    by_cases hmem : e ∈ faceEdges f <;> simp [hmem]

theorem faceEdges_nodup (f : Fin 16 × Fin 16 × Fin 16) (hf : f ∈ solidFaces) :
    (faceEdges f).Nodup := by
  have h := List.all_eq_true.mp solidFaces_distinct f hf
  simp only [Bool.and_eq_true, decide_eq_true_eq] at h
  obtain ⟨⟨h1, h2⟩, h3⟩ := h
  obtain ⟨a, b, c⟩ := f
  simp only [faceEdges, List.nodup_cons, List.mem_cons, List.mem_singleton, Prod.mk.injEq,
    List.not_mem_nil, not_false_eq_true, List.nodup_nil, and_true, not_or, not_and]
  simp only at h1 h2 h3
  refine ⟨⟨fun hab => ?_, fun hac => ?_⟩, fun hbc => ?_⟩
  · exact absurd (congrArg Fin.val hab) h1
  · exact absurd (congrArg Fin.val hac).symm h3
  · exact absurd (congrArg Fin.val hbc) h2

theorem solidFaces_edge_once (f : Fin 16 × Fin 16 × Fin 16) (hf : f ∈ solidFaces)
    (e : Fin 16 × Fin 16) (he : e ∈ faceEdges f) :
    solidFaces.countP (fun u => decide (e ∈ faceEdges u)) = 1 ∧
      solidFaces.countP (fun u => decide ((e.2, e.1) ∈ faceEdges u)) = 1 := by
  have hmem : edgeCode e ∈ edgeCodes :=
    List.mem_map_of_mem _ (List.mem_flatMap.mpr ⟨f, hf, he⟩)
  have hall := List.all_eq_true.mp edgeCodes_once (edgeCode e) hmem
  simp only [Bool.and_eq_true, beq_iff_eq] at hall
  rw [edgeCode_swap] at hall
  rw [countP_faceEdges _ faceEdges_nodup, countP_faceEdges _ faceEdges_nodup]
  exact hall

theorem faceEdges_not_both (f : Fin 16 × Fin 16 × Fin 16) (hf : f ∈ solidFaces)
    (e : Fin 16 × Fin 16) : ¬ (e ∈ faceEdges f ∧ (e.2, e.1) ∈ faceEdges f) := by
  have h := List.all_eq_true.mp solidFaces_distinct f hf
  simp only [Bool.and_eq_true, decide_eq_true_eq] at h
  obtain ⟨⟨h1, h2⟩, h3⟩ := h
  obtain ⟨a, b, c⟩ := f
  obtain ⟨p, q⟩ := e
  simp only at h1 h2 h3
  simp only [faceEdges, List.mem_cons, List.mem_singleton, Prod.mk.injEq, List.not_mem_nil,
    or_false]
  rintro ⟨h4, h5⟩
  rcases h4 with ⟨rfl, rfl⟩ | ⟨rfl, rfl⟩ | ⟨rfl, rfl⟩ <;>
    rcases h5 with ⟨h6, h7⟩ | ⟨h6, h7⟩ | ⟨h6, h7⟩ <;>
    first
    | exact h1 (congrArg Fin.val h6)
    | exact h1 (congrArg Fin.val h6).symm
    | exact h2 (congrArg Fin.val h6)
    | exact h2 (congrArg Fin.val h6).symm
    | exact h3 (congrArg Fin.val h6)
    | exact h3 (congrArg Fin.val h6).symm
    | exact h1 (congrArg Fin.val h7)
    | exact h1 (congrArg Fin.val h7).symm
    | exact h2 (congrArg Fin.val h7)
    | exact h2 (congrArg Fin.val h7).symm
    | exact h3 (congrArg Fin.val h7)
    | exact h3 (congrArg Fin.val h7).symm

theorem countP_hasEdge (m : List (Triangle K)) (p q : Vector3 K)
    (hm : ∀ u ∈ m, ¬ (u.hasDirectedEdge p q = true ∧ u.hasDirectedEdge q p = true)) :
    m.countP (fun u => u.hasEdge p q)
      = m.countP (fun u => u.hasDirectedEdge p q) + m.countP (fun u => u.hasDirectedEdge q p) := by
  induction m with
  | nil => rfl
  | cons u rest ih =>
    have hu := hm u (List.mem_cons_self _ _)
    have key : (if u.hasEdge p q = true then 1 else 0)
        = (if u.hasDirectedEdge p q = true then 1 else 0)
          + (if u.hasDirectedEdge q p = true then 1 else 0) := by
      unfold Triangle.hasEdge
      cases h1 : u.hasDirectedEdge p q <;> cases h2 : u.hasDirectedEdge q p <;>
        simp [h1, h2] at hu ⊢
    rw [List.countP_cons, List.countP_cons, List.countP_cons,
      ih (fun v hv => hm v (List.mem_cons_of_mem _ hv)), key]
    omega

/-- With an injective vertex map, a triangle of the mesh has a directed edge
between two vertex positions exactly when its face has the edge between the
two indices. -/
theorem hasDirectedEdge_vertex (g : ExtrudeGeometry K)
    (hg : Function.Injective g.vertex) (f : Fin 16 × Fin 16 × Fin 16) (i j : Fin 16) :
    (Triangle.mk (g.vertex f.1) (g.vertex f.2.1) (g.vertex f.2.2)).hasDirectedEdge
        (g.vertex i) (g.vertex j)
      = decide ((i, j) ∈ faceEdges f) := by
  simp only [Triangle.hasDirectedEdge, Triangle.edges, faceEdges, List.mem_cons,
    List.mem_singleton, Prod.mk.injEq, List.not_mem_nil, or_false, hg.eq_iff]

theorem mesh_closed_of_injective (g : ExtrudeGeometry K) (hg : Function.Injective g.vertex) :
    IsClosed g.mesh ∧ IsConsistentlyWound g.mesh := by
  have hdir : ∀ i j : Fin 16, g.mesh.countP (fun u => u.hasDirectedEdge (g.vertex i) (g.vertex j))
      = solidFaces.countP (fun f => decide ((i, j) ∈ faceEdges f)) := by
    intro i j
    unfold ExtrudeGeometry.mesh
    rw [List.countP_map]
    apply List.countP_congr
    intro f _
    simp only [Function.comp, hasDirectedEdge_vertex g hg]
  have hundir : ∀ i j : Fin 16, g.mesh.countP (fun u => u.hasEdge (g.vertex i) (g.vertex j))
      = solidFaces.countP (fun f => decide ((i, j) ∈ faceEdges f))
        + solidFaces.countP (fun f => decide ((j, i) ∈ faceEdges f)) := by
    intro i j
    rw [countP_hasEdge, hdir, hdir]
    intro u hu
    unfold ExtrudeGeometry.mesh at hu
    obtain ⟨f, hf, rfl⟩ := List.mem_map.mp hu
    rw [hasDirectedEdge_vertex g hg, hasDirectedEdge_vertex g hg]
    simpa using faceEdges_not_both f hf (i, j)
  have hedge : ∀ t ∈ g.mesh, ∀ e ∈ t.edges, ∃ f ∈ solidFaces, ∃ d ∈ faceEdges f,
      e = (g.vertex d.1, g.vertex d.2) := by
    intro t ht e he
    unfold ExtrudeGeometry.mesh at ht
    obtain ⟨f, hf, rfl⟩ := List.mem_map.mp ht
    refine ⟨f, hf, ?_⟩
    simp only [Triangle.edges, List.mem_cons, List.mem_singleton, List.not_mem_nil,
      or_false] at he
    rcases he with rfl | rfl | rfl
    · exact ⟨(f.1, f.2.1), by simp [faceEdges], rfl⟩
    · exact ⟨(f.2.1, f.2.2), by simp [faceEdges], rfl⟩
    · exact ⟨(f.2.2, f.1), by simp [faceEdges], rfl⟩
  constructor
  · intro t ht e he
    obtain ⟨f, hf, d, hd, rfl⟩ := hedge t ht e he
    obtain ⟨h1, h2⟩ := solidFaces_edge_once f hf d hd
    rw [hundir, h1, h2]
  · intro t ht e he
    obtain ⟨f, hf, d, hd, rfl⟩ := hedge t ht e he
    obtain ⟨h1, h2⟩ := solidFaces_edge_once f hf d hd
    rw [hdir, hdir]
    exact ⟨h1, h2⟩

theorem solidFaces_eq : solidFaces =
    [(8, 9, 13), (8, 13, 12), (1, 0, 5), (5, 0, 4), (0, 1, 9), (0, 9, 8), (4, 13, 5),
     (4, 12, 13), (9, 10, 14), (9, 14, 13), (2, 1, 6), (6, 1, 5), (1, 2, 10), (1, 10, 9),
     (5, 14, 6), (5, 13, 14), (10, 11, 15), (10, 15, 14), (3, 2, 7), (7, 2, 6), (2, 3, 11),
     (2, 11, 10), (6, 15, 7), (6, 14, 15), (11, 8, 12), (11, 12, 15), (0, 3, 4), (4, 3, 7),
     (3, 0, 8), (3, 8, 11), (7, 12, 4), (7, 15, 12)] := by
  decide

theorem vertex_values (w h t l : K) :
    (createTubeGeometry w h t l).vertex 0 = ⟨-w / 2, -h / 2, 0⟩ ∧
    (createTubeGeometry w h t l).vertex 1 = ⟨w / 2, -h / 2, 0⟩ ∧
    (createTubeGeometry w h t l).vertex 2 = ⟨w / 2, h / 2, 0⟩ ∧
    (createTubeGeometry w h t l).vertex 3 = ⟨-w / 2, h / 2, 0⟩ ∧
    (createTubeGeometry w h t l).vertex 4 = ⟨-(w / 2 - t), -(h / 2 - t), 0⟩ ∧
    (createTubeGeometry w h t l).vertex 5 = ⟨w / 2 - t, -(h / 2 - t), 0⟩ ∧
    (createTubeGeometry w h t l).vertex 6 = ⟨w / 2 - t, h / 2 - t, 0⟩ ∧
    (createTubeGeometry w h t l).vertex 7 = ⟨-(w / 2 - t), h / 2 - t, 0⟩ ∧
    (createTubeGeometry w h t l).vertex 8 = ⟨-w / 2, -h / 2, l⟩ ∧
    (createTubeGeometry w h t l).vertex 9 = ⟨w / 2, -h / 2, l⟩ ∧
    (createTubeGeometry w h t l).vertex 10 = ⟨w / 2, h / 2, l⟩ ∧
    (createTubeGeometry w h t l).vertex 11 = ⟨-w / 2, h / 2, l⟩ ∧
    (createTubeGeometry w h t l).vertex 12 = ⟨-(w / 2 - t), -(h / 2 - t), l⟩ ∧
    (createTubeGeometry w h t l).vertex 13 = ⟨w / 2 - t, -(h / 2 - t), l⟩ ∧
    (createTubeGeometry w h t l).vertex 14 = ⟨w / 2 - t, h / 2 - t, l⟩ ∧
    (createTubeGeometry w h t l).vertex 15 = ⟨-(w / 2 - t), h / 2 - t, l⟩ :=
  ⟨rfl, rfl, rfl, rfl, rfl, rfl, rfl, rfl, rfl, rfl, rfl, rfl, rfl, rfl, rfl, rfl⟩

theorem signedVolume_createTubeGeometry (w h t l : K) :
    signedVolume (createTubeGeometry w h t l).mesh
      = l * (w * h - (w - 2 * t) * (h - 2 * t)) := by
  obtain ⟨v0, v1, v2, v3, v4, v5, v6, v7, v8, v9, v10, v11, v12, v13, v14, v15⟩ :=
    vertex_values w h t l
  unfold signedVolume ExtrudeGeometry.mesh
  rw [solidFaces_eq]
  simp only [List.map, v0, v1, v2, v3, v4, v5, v6, v7, v8, v9, v10, v11, v12, v13, v14, v15,
    Triangle.det, List.sum_cons, List.sum_nil]
  ring

/-- C10: for a valid profile (`0 < t < min(w,h)/2`) and a positive length the
tube mesh is closed (every edge lies on exactly two triangles), consistently
wound, and its signed volume is `l (w h - (w - 2t)(h - 2t)) > 0`. -/
theorem tube_mesh_closed (w h t l : K) (ht : 0 < t) (hlt : t < min w h / 2) (hl : 0 < l) :
    IsClosed (createTubeGeometry w h t l).mesh ∧
      IsConsistentlyWound (createTubeGeometry w h t l).mesh ∧
      signedVolume (createTubeGeometry w h t l).mesh
        = l * (w * h - (w - 2 * t) * (h - 2 * t)) ∧
      0 < signedVolume (createTubeGeometry w h t l).mesh := by
  have hw : t < w / 2 := lt_of_lt_of_le hlt (by gcongr; exact min_le_left w h)
  have hh : t < h / 2 := lt_of_lt_of_le hlt (by gcongr; exact min_le_right w h)
  have hinj : Function.Injective (createTubeGeometry w h t l).vertex :=
    fun i j hij => vertex_injective w h t l ht hw hh hl i j hij
  obtain ⟨hc, ho⟩ := mesh_closed_of_injective _ hinj
  refine ⟨hc, ho, signedVolume_createTubeGeometry w h t l, ?_⟩
  rw [signedVolume_createTubeGeometry]
  have h1 : 0 < w / 2 - t := by linarith
  have h2 : 0 < h / 2 - t := by linarith
  have harea : 0 < w * h - (w - 2 * t) * (h - 2 * t) := by
    nlinarith [mul_pos ht h1, mul_pos ht h2, mul_pos ht ht]
  exact mul_pos hl harea

/-- Witness for C10: the default profile 50 x 50 with wall 5 and length 200. -/
theorem tube_mesh_closed_witness :
    IsClosed (createTubeGeometry (50 : ℚ) 50 5 200).mesh ∧
      0 < signedVolume (createTubeGeometry (50 : ℚ) 50 5 200).mesh :=
  ⟨(tube_mesh_closed (50 : ℚ) 50 5 200 (by norm_num) (by norm_num) (by norm_num)).1,
    (tube_mesh_closed (50 : ℚ) 50 5 200 (by norm_num) (by norm_num) (by norm_num)).2.2.2⟩

/-! ## Rotations -/

/-- The three.js Euler matrix of order XYZ is the product `Rx * Ry * Rz`. -/
theorem makeRotationFromEuler_eq_mul (M : MathLib K) (r : Euler K) :
    makeRotationFromEuler M r = (rotX M r.x).mul ((rotY M r.y).mul (rotZ M r.z)) := by
  simp only [makeRotationFromEuler, rotX, rotY, rotZ, Matrix3.mul]
  ext <;> simp only <;> ring

/-- The rotation of `applyQuaternion` for a quaternion built from half-angle
cosines and sines, before the norms are set to one. -/
theorem applyQuaternion_halfAngles (c1 s1 c2 s2 c3 s3 vx vy vz n1 n2 n3 : ℝ)
    (e1 : n1 = c1 ^ 2 + s1 ^ 2) (e2 : n2 = c2 ^ 2 + s2 ^ 2) (e3 : n3 = c3 ^ 2 + s3 ^ 2) :
    (Vector3.applyQuaternion ⟨vx, vy, vz⟩
        (⟨s1 * c2 * c3 + c1 * s2 * s3, c1 * s2 * c3 - s1 * c2 * s3,
          c1 * c2 * s3 + s1 * s2 * c3, c1 * c2 * c3 - s1 * s2 * s3⟩ : Quaternion ℝ)).x
        + (n1 * n2 * n3 - 1) * vx
      = n1 * ((c2 ^ 2 - s2 ^ 2) * (c3 ^ 2 - s3 ^ 2)) * vx
        + n1 * (-(c2 ^ 2 - s2 ^ 2) * (2 * s3 * c3)) * vy + n1 * n3 * (2 * s2 * c2) * vz ∧
    (Vector3.applyQuaternion ⟨vx, vy, vz⟩
        (⟨s1 * c2 * c3 + c1 * s2 * s3, c1 * s2 * c3 - s1 * c2 * s3,
          c1 * c2 * s3 + s1 * s2 * c3, c1 * c2 * c3 - s1 * s2 * s3⟩ : Quaternion ℝ)).y
        + (n1 * n2 * n3 - 1) * vy
      = (n2 * ((c1 ^ 2 - s1 ^ 2) * (2 * s3 * c3))
          + 2 * s1 * c1 * (c3 ^ 2 - s3 ^ 2) * (2 * s2 * c2)) * vx
        + (n2 * ((c1 ^ 2 - s1 ^ 2) * (c3 ^ 2 - s3 ^ 2))
          - 2 * s1 * c1 * (2 * s3 * c3) * (2 * s2 * c2)) * vy
        + n3 * (-(2 * s1 * c1) * (c2 ^ 2 - s2 ^ 2)) * vz ∧
    (Vector3.applyQuaternion ⟨vx, vy, vz⟩
        (⟨s1 * c2 * c3 + c1 * s2 * s3, c1 * s2 * c3 - s1 * c2 * s3,
          c1 * c2 * s3 + s1 * s2 * c3, c1 * c2 * c3 - s1 * s2 * s3⟩ : Quaternion ℝ)).z
        + (n1 * n2 * n3 - 1) * vz
      = (n2 * (2 * s1 * c1 * (2 * s3 * c3))
          - (c1 ^ 2 - s1 ^ 2) * (c3 ^ 2 - s3 ^ 2) * (2 * s2 * c2)) * vx
        + (n2 * (2 * s1 * c1 * (c3 ^ 2 - s3 ^ 2))
          + (c1 ^ 2 - s1 ^ 2) * (2 * s3 * c3) * (2 * s2 * c2)) * vy
        + n3 * ((c1 ^ 2 - s1 ^ 2) * (c2 ^ 2 - s2 ^ 2)) * vz := by
  subst e1 e2 e3
  simp only [Vector3.applyQuaternion]
  refine ⟨by ring, by ring, by ring⟩

theorem cos_eq_half (x : ℝ) : Real.cos x = Real.cos (x / 2) ^ 2 - Real.sin (x / 2) ^ 2 := by
  have h := Real.cos_two_mul' (x / 2)
  rw [show 2 * (x / 2) = x by ring] at h
  exact h

theorem sin_eq_half (x : ℝ) : Real.sin x = 2 * Real.sin (x / 2) * Real.cos (x / 2) := by
  have h := Real.sin_two_mul (x / 2)
  rw [show 2 * (x / 2) = x by ring] at h
  exact h

/-- Over the reals `applyEuler` (through the quaternion) is multiplication by
the Euler rotation matrix. -/
theorem applyEuler_eq_matrix (v : Vector3 ℝ) (r : Euler ℝ) :
    v.applyEuler ⟨Real.pi, Real.cos, Real.sin⟩ r
      = (makeRotationFromEuler ⟨Real.pi, Real.cos, Real.sin⟩ r).apply v := by
  obtain ⟨x, y, z⟩ := r
  obtain ⟨vx, vy, vz⟩ := v
  obtain ⟨k1, k2, k3⟩ := applyQuaternion_halfAngles (Real.cos (x / 2)) (Real.sin (x / 2))
    (Real.cos (y / 2)) (Real.sin (y / 2)) (Real.cos (z / 2)) (Real.sin (z / 2)) vx vy vz 1 1 1
    (Real.cos_sq_add_sin_sq _).symm (Real.cos_sq_add_sin_sq _).symm
    (Real.cos_sq_add_sin_sq _).symm
  simp only [mul_one, one_mul, sub_self, zero_mul, add_zero] at k1 k2 k3
  simp only [Vector3.applyEuler, Quaternion.setFromEuler, makeRotationFromEuler, Matrix3.apply,
    cos_eq_half x, sin_eq_half x, cos_eq_half y, sin_eq_half y, cos_eq_half z, sin_eq_half z]
  refine Vector3.ext ?_ ?_ ?_
  · linear_combination k1
  · linear_combination k2
  · linear_combination k3

/-- The forward axis `(0, 0, 1)` rotated by Euler angles. -/
theorem forward_applyEuler (r : Euler ℝ) :
    (⟨0, 0, 1⟩ : Vector3 ℝ).applyEuler ⟨Real.pi, Real.cos, Real.sin⟩ r
      = ⟨Real.sin r.y, -Real.sin r.x * Real.cos r.y, Real.cos r.x * Real.cos r.y⟩ := by
  rw [applyEuler_eq_matrix]
  simp [makeRotationFromEuler, Matrix3.apply]

/-- The rotated forward axis is a unit vector. -/
theorem forward_unit (r : Euler ℝ) :
    ((⟨0, 0, 1⟩ : Vector3 ℝ).applyEuler ⟨Real.pi, Real.cos, Real.sin⟩ r).x ^ 2
      + ((⟨0, 0, 1⟩ : Vector3 ℝ).applyEuler ⟨Real.pi, Real.cos, Real.sin⟩ r).y ^ 2
      + ((⟨0, 0, 1⟩ : Vector3 ℝ).applyEuler ⟨Real.pi, Real.cos, Real.sin⟩ r).z ^ 2 = 1 := by
  rw [forward_applyEuler]
  simp only
  have hx := Real.cos_sq_add_sin_sq r.x
  have hy := Real.cos_sq_add_sin_sq r.y
  nlinarith [hx, hy]

/-! ## Placement of a jointed tube -/

theorem addTube_tubes (M : MathLib K) (s : State K) (children : List (SceneObject K))
    (hs : s.scene = some children) :
    (addTube M s).tubes = s.tubes ++ [
      { geometry := createTubeGeometry s.width s.height s.thickness s.length
        position := ⟨(s.tubes.length : K) * 50, 0, 0⟩
        rotation := ⟨M.PI / 2, 0, 0⟩
        userData := ⟨s.width, s.height, s.thickness, s.length, s.tubeType⟩ }] := by
  rw [addTube_eq M s children hs]
  rfl

theorem addJointedTube_tubes (M : MathLib K) (s : State K) (children : List (SceneObject K))
    (parentTube : Tube K) (hs : s.scene = some children)
    (hp : s.tubes.getLast? = some parentTube) :
    (addJointedTube M s).tubes = s.tubes ++ [jointedTube M s parentTube] ∧
      (addJointedTube M s).scene
        = some (children ++ [jointMarker M s parentTube, .tube (jointedTube M s parentTube)]) := by
  rw [addJointedTube_eq M s children parentTube hs hp]
  exact ⟨rfl, rfl⟩

/-- Every tube of a reachable chain has Euler `z` angle zero. -/
theorem reachable_rotation_z (M : MathLib K) (s : State K) (h : Reachable M s) :
    ∀ t ∈ s.tubes, t.rotation.z = 0 := by
  induction h with
  | mounted => intro t ht; simp [State.mounted] at ht
  | step a hr ih =>
    rename_i s0
    obtain ⟨children, hs⟩ := Option.isSome_iff_exists.mp (reachable_scene M s0 hr)
    have hT : ∀ t ∈ (addTube M s0).tubes, t.rotation.z = 0 := by
      intro t ht
      rw [addTube_tubes M s0 children hs, List.mem_append, List.mem_singleton] at ht
      rcases ht with ht | rfl
      · exact ih t ht
      · rfl
    cases a with
    | setHeight v =>
      simp only [step]
      split
      · exact ih
      · exact ih
    | addTube => exact hT
    | addJointedTube =>
      simp only [step]
      cases hp : s0.tubes.getLast? with
      | none =>
        have : addJointedTube M s0 = addTube M s0 := by simp [addJointedTube, hs, hp]
        rw [this]; exact hT
      | some parentTube =>
        intro t ht
        rw [(addJointedTube_tubes M s0 children parentTube hs hp).1, List.mem_append,
          List.mem_singleton] at ht
        rcases ht with ht | rfl
        · exact ih t ht
        · exact ih parentTube (List.mem_of_getLast?_eq_some hp)
    | saveHistory => exact ih
    | clearAll =>
      intro t ht
      simp [step, clearAll, hs] at ht
    | undo =>
      simp only [step, undo]
      split
      · exact ih
      · exact ih
    | _ => exact ih

/-- Adding `d` to the Euler `y` angle multiplies the rotation matrix by a
rotation about Y on the right, when the Euler `z` angle is zero. -/
theorem makeRotationFromEuler_add_y (x y d : ℝ) :
    makeRotationFromEuler ⟨Real.pi, Real.cos, Real.sin⟩ ⟨x, y + d, 0⟩
      = (makeRotationFromEuler ⟨Real.pi, Real.cos, Real.sin⟩ ⟨x, y, 0⟩).mul
          (rotY ⟨Real.pi, Real.cos, Real.sin⟩ d) := by
  simp only [makeRotationFromEuler, rotY, Matrix3.mul, Real.cos_add, Real.sin_add,
    Real.cos_zero, Real.sin_zero]
  ext <;> simp only <;> ring

/-- C4: in a reachable chain, for every hinge angle `theta`, `addJointedTube`
appends a child whose Euler angles are the parent's with `theta * pi / 180`
added to `y`, and whose rotation matrix (three.js order XYZ, `Rx * Ry * Rz`) is
the parent's matrix times the rotation by that angle about the local Y axis. -/
theorem hinge_rotation (s : State ℝ)
    (h : Reachable (⟨Real.pi, Real.cos, Real.sin⟩ : MathLib ℝ) s) (theta : ℝ)
    (parentTube : Tube ℝ) (hp : s.tubes.getLast? = some parentTube) :
    ∃ child : Tube ℝ,
      (addJointedTube ⟨Real.pi, Real.cos, Real.sin⟩
          (step ⟨Real.pi, Real.cos, Real.sin⟩ (.setAngle theta) s)).tubes
        = s.tubes ++ [child] ∧
      child.rotation = ⟨parentTube.rotation.x, parentTube.rotation.y + theta * Real.pi / 180,
        parentTube.rotation.z⟩ ∧
      makeRotationFromEuler ⟨Real.pi, Real.cos, Real.sin⟩ child.rotation
        = (makeRotationFromEuler ⟨Real.pi, Real.cos, Real.sin⟩ parentTube.rotation).mul
            (rotY ⟨Real.pi, Real.cos, Real.sin⟩ (theta * Real.pi / 180)) ∧
      makeRotationFromEuler ⟨Real.pi, Real.cos, Real.sin⟩ child.rotation
        = (rotX ⟨Real.pi, Real.cos, Real.sin⟩ child.rotation.x).mul
            ((rotY ⟨Real.pi, Real.cos, Real.sin⟩ child.rotation.y).mul
              (rotZ ⟨Real.pi, Real.cos, Real.sin⟩ child.rotation.z)) ∧
      ∀ v : Vector3 ℝ, v.applyEuler ⟨Real.pi, Real.cos, Real.sin⟩ child.rotation
        = ((makeRotationFromEuler ⟨Real.pi, Real.cos, Real.sin⟩ parentTube.rotation).mul
            (rotY ⟨Real.pi, Real.cos, Real.sin⟩ (theta * Real.pi / 180))).apply v := by
  obtain ⟨children, hs⟩ := Option.isSome_iff_exists.mp (reachable_scene _ s h)
  have hz := reachable_rotation_z _ s h parentTube (List.mem_of_getLast?_eq_some hp)
  have hrot : makeRotationFromEuler ⟨Real.pi, Real.cos, Real.sin⟩
      (jointedTube ⟨Real.pi, Real.cos, Real.sin⟩
        (step ⟨Real.pi, Real.cos, Real.sin⟩ (.setAngle theta) s) parentTube).rotation
      = (makeRotationFromEuler ⟨Real.pi, Real.cos, Real.sin⟩ parentTube.rotation).mul
          (rotY ⟨Real.pi, Real.cos, Real.sin⟩ (theta * Real.pi / 180)) := by
    obtain ⟨g, p, ⟨x, y, z⟩, u⟩ := parentTube
    simp only at hz
    subst hz
    exact makeRotationFromEuler_add_y x y (theta * Real.pi / 180)
  refine ⟨jointedTube ⟨Real.pi, Real.cos, Real.sin⟩
    (step ⟨Real.pi, Real.cos, Real.sin⟩ (.setAngle theta) s) parentTube, ?_, rfl, hrot,
    makeRotationFromEuler_eq_mul _ _, ?_⟩
  · exact (addJointedTube_tubes _ (step ⟨Real.pi, Real.cos, Real.sin⟩ (.setAngle theta) s)
      children parentTube hs hp).1
  · intro v
    rw [applyEuler_eq_matrix, hrot]

/-- Witness for C4: the chain after one `addTube`, hinge angle 45. -/
theorem hinge_rotation_witness :
    ∃ child : Tube ℝ,
      (addJointedTube ⟨Real.pi, Real.cos, Real.sin⟩
          (step ⟨Real.pi, Real.cos, Real.sin⟩ (.setAngle 45)
            (step ⟨Real.pi, Real.cos, Real.sin⟩ .addTube State.mounted))).tubes
        = (step (⟨Real.pi, Real.cos, Real.sin⟩ : MathLib ℝ) .addTube State.mounted).tubes
          ++ [child] ∧
      makeRotationFromEuler ⟨Real.pi, Real.cos, Real.sin⟩ child.rotation
        = (makeRotationFromEuler ⟨Real.pi, Real.cos, Real.sin⟩ ⟨Real.pi / 2, 0, 0⟩).mul
            (rotY ⟨Real.pi, Real.cos, Real.sin⟩ (45 * Real.pi / 180)) := by
  obtain ⟨child, h1, _, h3, _⟩ := hinge_rotation
    (step ⟨Real.pi, Real.cos, Real.sin⟩ .addTube State.mounted) (.step _ .mounted) 45
    { geometry := createTubeGeometry 50 50 5 200
      position := ⟨((0 : Nat) : ℝ) * 50, 0, 0⟩
      rotation := ⟨Real.pi / 2, 0, 0⟩
      userData := ⟨50, 50, 5, 200, .square⟩ } rfl
  exact ⟨child, h1, h3⟩

/-- C2: with hinge angle 0 the child keeps the parent's rotation and sits at
`P_p + d_p (l_p / 2 + l_c / 2)`; the joint marker is at `P_p + d_p (l_p / 2)`;
`d_p` is a unit vector, so the child centre is at distance `|l_p/2 + l_c/2|`
from the parent centre, which is `l_p/2 + l_c/2` when that is not negative. -/
theorem collinear_at_zero (s : State ℝ) (children : List (SceneObject ℝ))
    (parentTube : Tube ℝ) (hs : s.scene = some children)
    (hp : s.tubes.getLast? = some parentTube) (ha : s.angle = 0) :
    ∃ (child : Tube ℝ) (joint : Vector3 ℝ) (radius : ℝ),
      (addJointedTube ⟨Real.pi, Real.cos, Real.sin⟩ s).tubes = s.tubes ++ [child] ∧
      (addJointedTube ⟨Real.pi, Real.cos, Real.sin⟩ s).scene
        = some (children ++ [.joint radius joint, .tube child]) ∧
      child.rotation = parentTube.rotation ∧
      child.position = parentTube.position.add
        (((⟨0, 0, 1⟩ : Vector3 ℝ).applyEuler ⟨Real.pi, Real.cos, Real.sin⟩
          parentTube.rotation).multiplyScalar (parentTube.userData.length / 2 + s.length / 2)) ∧
      joint = parentTube.position.add
        (((⟨0, 0, 1⟩ : Vector3 ℝ).applyEuler ⟨Real.pi, Real.cos, Real.sin⟩
          parentTube.rotation).multiplyScalar (parentTube.userData.length / 2)) ∧
      Real.sqrt ((child.position.x - parentTube.position.x) ^ 2
          + (child.position.y - parentTube.position.y) ^ 2
          + (child.position.z - parentTube.position.z) ^ 2)
        = |parentTube.userData.length / 2 + s.length / 2| ∧
      (0 ≤ parentTube.userData.length / 2 + s.length / 2 →
        Real.sqrt ((child.position.x - parentTube.position.x) ^ 2
            + (child.position.y - parentTube.position.y) ^ 2
            + (child.position.z - parentTube.position.z) ^ 2)
          = parentTube.userData.length / 2 + s.length / 2) := by
  obtain ⟨h1, h2⟩ := addJointedTube_tubes ⟨Real.pi, Real.cos, Real.sin⟩ s children parentTube hs hp
  have hrot : (jointedTube ⟨Real.pi, Real.cos, Real.sin⟩ s parentTube).rotation
      = parentTube.rotation := by
    simp [jointedTube, ha]
  have hpos : (jointedTube ⟨Real.pi, Real.cos, Real.sin⟩ s parentTube).position
      = parentTube.position.add
        (((⟨0, 0, 1⟩ : Vector3 ℝ).applyEuler ⟨Real.pi, Real.cos, Real.sin⟩
          parentTube.rotation).multiplyScalar (parentTube.userData.length / 2 + s.length / 2)) := by
    have hr : ({ parentTube.rotation with
        y := parentTube.rotation.y + s.angle * Real.pi / 180 } : Euler ℝ)
        = parentTube.rotation := by
      simp [ha]
    simp only [jointedTube, hr, Vector3.add, Vector3.multiplyScalar]
    ext <;> simp only <;> ring
  have hdist : (((jointedTube ⟨Real.pi, Real.cos, Real.sin⟩ s parentTube).position.x
        - parentTube.position.x) ^ 2
      + ((jointedTube ⟨Real.pi, Real.cos, Real.sin⟩ s parentTube).position.y
        - parentTube.position.y) ^ 2
      + ((jointedTube ⟨Real.pi, Real.cos, Real.sin⟩ s parentTube).position.z
        - parentTube.position.z) ^ 2)
      = (parentTube.userData.length / 2 + s.length / 2) ^ 2 := by
    rw [hpos]
    have hu := forward_unit parentTube.rotation
    simp only [Vector3.add, Vector3.multiplyScalar]
    linear_combination (parentTube.userData.length / 2 + s.length / 2) ^ 2 * hu
  refine ⟨jointedTube ⟨Real.pi, Real.cos, Real.sin⟩ s parentTube, _, _, h1, h2, hrot, hpos, rfl,
    ?_, ?_⟩
  · rw [hdist, Real.sqrt_sq_eq_abs]
  · intro hnn
    rw [hdist, Real.sqrt_sq hnn]

/-- Witness for C2: the chain after one `addTube`, then angle 0. -/
theorem collinear_at_zero_witness :
    ∃ (child : Tube ℝ),
      (addJointedTube ⟨Real.pi, Real.cos, Real.sin⟩
          (step ⟨Real.pi, Real.cos, Real.sin⟩ (.setAngle 0)
            (step ⟨Real.pi, Real.cos, Real.sin⟩ .addTube State.mounted))).tubes
        = (step (⟨Real.pi, Real.cos, Real.sin⟩ : MathLib ℝ) .addTube State.mounted).tubes
          ++ [child] ∧
      child.rotation = ⟨Real.pi / 2, 0, 0⟩ ∧
      Real.sqrt ((child.position.x - ((0 : Nat) : ℝ) * 50) ^ 2 + (child.position.y - 0) ^ 2
          + (child.position.z - 0) ^ 2) = 200 / 2 + 200 / 2 := by
  obtain ⟨child, _, _, h1, _, h3, _, _, _, h7⟩ := collinear_at_zero
    (step ⟨Real.pi, Real.cos, Real.sin⟩ (.setAngle 0)
      (step ⟨Real.pi, Real.cos, Real.sin⟩ .addTube State.mounted))
    _
    { geometry := createTubeGeometry 50 50 5 200
      position := ⟨((0 : Nat) : ℝ) * 50, 0, 0⟩
      rotation := ⟨Real.pi / 2, 0, 0⟩
      userData := ⟨50, 50, 5, 200, .square⟩ } rfl rfl rfl
  exact ⟨child, h1, h3, h7 (by show (0 : ℝ) ≤ 200 / 2 + 200 / 2; norm_num)⟩

/-! ## End caps and the joint marker -/

theorem capCentre_createTubeGeometry (w h t l z : K) :
    (createTubeGeometry w h t l).capCentre z = ⟨0, 0, z⟩ := by
  simp only [ExtrudeGeometry.capCentre, createTubeGeometry, List.take, List.headD, List.map,
    List.append, List.sum_cons, List.sum_nil, List.cons_append, List.nil_append]
  ext <;> simp only <;> ring

/-- The near end cap of a tube built by `createTubeGeometry` is centred at the
tube's `position`. -/
theorem nearCapCentre_eq_position (M : MathLib K) (t : Tube K) (w h th l : K)
    (hg : t.geometry = createTubeGeometry w h th l) :
    t.nearCapCentre M = t.position := by
  simp only [Tube.nearCapCentre, Tube.localToWorld, hg, capCentre_createTubeGeometry,
    Vector3.applyEuler, Vector3.applyQuaternion, Vector3.add]
  ext <;> simp only <;> ring

/-- The far end cap of a tube built by `createTubeGeometry` is centred a whole
length along the forward axis from the tube's `position`. -/
theorem farCapCentre_eq (t : Tube ℝ) (w h th l : ℝ)
    (hg : t.geometry = createTubeGeometry w h th l) :
    t.farCapCentre ⟨Real.pi, Real.cos, Real.sin⟩ = t.position.add
      (((⟨0, 0, 1⟩ : Vector3 ℝ).applyEuler ⟨Real.pi, Real.cos, Real.sin⟩
        t.rotation).multiplyScalar l) := by
  simp only [Tube.farCapCentre, Tube.localToWorld, hg, capCentre_createTubeGeometry,
    applyEuler_eq_matrix, makeRotationFromEuler, Matrix3.apply, Vector3.add,
    Vector3.multiplyScalar]
  have hd : (createTubeGeometry w h th l).depth = l := rfl
  rw [hd]
  ext <;> simp only <;> ring

/-- C3 at the default settings: after `addTube` and `addJointedTube` (length
200, angle 90) the joint marker is at `(0, -100, 0)`, the middle of the parent,
whose two caps are centred at `(0, 0, 0)` and `(0, -200, 0)`; the near cap of
the child is centred at `(100, -100, 0)`. -/
theorem joint_marker_at_parent_middle :
    ∃ (parent child : Tube ℝ) (joint : Vector3 ℝ) (radius : ℝ),
      (run ⟨Real.pi, Real.cos, Real.sin⟩ [.addTube, .addJointedTube] State.mounted).tubes
        = [parent, child] ∧
      (run ⟨Real.pi, Real.cos, Real.sin⟩ [.addTube, .addJointedTube] State.mounted).scene
        = some [.ambientLight, .directionalLight, .gridHelper, .axesHelper, .tube parent,
            .joint radius joint, .tube child] ∧
      joint = ⟨0, -100, 0⟩ ∧
      parent.nearCapCentre ⟨Real.pi, Real.cos, Real.sin⟩ = ⟨0, 0, 0⟩ ∧
      parent.farCapCentre ⟨Real.pi, Real.cos, Real.sin⟩ = ⟨0, -200, 0⟩ ∧
      child.nearCapCentre ⟨Real.pi, Real.cos, Real.sin⟩ = ⟨100, -100, 0⟩ ∧
      child.farCapCentre ⟨Real.pi, Real.cos, Real.sin⟩ = ⟨300, -100, 0⟩ ∧
      parent.farCapCentre ⟨Real.pi, Real.cos, Real.sin⟩ ≠ joint ∧
      child.nearCapCentre ⟨Real.pi, Real.cos, Real.sin⟩ ≠ joint := by
  have hparent : (step (⟨Real.pi, Real.cos, Real.sin⟩ : MathLib ℝ) .addTube State.mounted).tubes
      = [{ geometry := createTubeGeometry 50 50 5 200
           position := ⟨((0 : Nat) : ℝ) * 50, 0, 0⟩
           rotation := ⟨Real.pi / 2, 0, 0⟩
           userData := ⟨50, 50, 5, 200, .square⟩ }] := rfl
  obtain ⟨h1, h2⟩ := addJointedTube_tubes ⟨Real.pi, Real.cos, Real.sin⟩
    (step (⟨Real.pi, Real.cos, Real.sin⟩ : MathLib ℝ) .addTube State.mounted) _
    { geometry := createTubeGeometry 50 50 5 200
      position := ⟨((0 : Nat) : ℝ) * 50, 0, 0⟩
      rotation := ⟨Real.pi / 2, 0, 0⟩
      userData := ⟨50, 50, 5, 200, .square⟩ } rfl rfl
  have hd : (⟨0, 0, 1⟩ : Vector3 ℝ).applyEuler ⟨Real.pi, Real.cos, Real.sin⟩
      ⟨Real.pi / 2, 0, 0⟩ = ⟨0, -1, 0⟩ := by
    rw [forward_applyEuler]
    simp
  have hd2 : (⟨0, 0, 1⟩ : Vector3 ℝ).applyEuler ⟨Real.pi, Real.cos, Real.sin⟩
      ⟨Real.pi / 2, 0 + 90 * Real.pi / 180, 0⟩ = ⟨1, 0, 0⟩ := by
    rw [forward_applyEuler]
    have h90 : (0 : ℝ) + 90 * Real.pi / 180 = Real.pi / 2 := by ring
    simp [h90]
  have hchild : jointedTube ⟨Real.pi, Real.cos, Real.sin⟩
      (step (⟨Real.pi, Real.cos, Real.sin⟩ : MathLib ℝ) .addTube State.mounted)
      { geometry := createTubeGeometry 50 50 5 200
        position := ⟨((0 : Nat) : ℝ) * 50, 0, 0⟩
        rotation := ⟨Real.pi / 2, 0, 0⟩
        userData := ⟨50, 50, 5, 200, .square⟩ }
      = { geometry := createTubeGeometry 50 50 5 200
          position := ⟨100, -100, 0⟩
          rotation := ⟨Real.pi / 2, 0 + 90 * Real.pi / 180, 0⟩
          userData := ⟨50, 50, 5, 200, .square⟩ } := by
    have hraw : jointedTube ⟨Real.pi, Real.cos, Real.sin⟩
        (step (⟨Real.pi, Real.cos, Real.sin⟩ : MathLib ℝ) .addTube State.mounted)
        { geometry := createTubeGeometry 50 50 5 200
          position := ⟨((0 : Nat) : ℝ) * 50, 0, 0⟩
          rotation := ⟨Real.pi / 2, 0, 0⟩
          userData := ⟨50, 50, 5, 200, .square⟩ }
        = { geometry := createTubeGeometry 50 50 5 200
            position := ((⟨((0 : Nat) : ℝ) * 50, 0, 0⟩ : Vector3 ℝ).add
              (((⟨0, 0, 1⟩ : Vector3 ℝ).applyEuler ⟨Real.pi, Real.cos, Real.sin⟩
                ⟨Real.pi / 2, 0, 0⟩).multiplyScalar (200 / 2))).add
              (((⟨0, 0, 1⟩ : Vector3 ℝ).applyEuler ⟨Real.pi, Real.cos, Real.sin⟩
                ⟨Real.pi / 2, 0 + 90 * Real.pi / 180, 0⟩).multiplyScalar (200 / 2))
            rotation := ⟨Real.pi / 2, 0 + 90 * Real.pi / 180, 0⟩
            userData := ⟨50, 50, 5, 200, .square⟩ } := rfl
    rw [hraw, hd, hd2]
    simp only [Vector3.add, Vector3.multiplyScalar, Tube.mk.injEq, Vector3.mk.injEq, true_and,
      and_true]
    norm_num
  have hjoint : jointMarker ⟨Real.pi, Real.cos, Real.sin⟩
      (step (⟨Real.pi, Real.cos, Real.sin⟩ : MathLib ℝ) .addTube State.mounted)
      { geometry := createTubeGeometry 50 50 5 200
        position := ⟨((0 : Nat) : ℝ) * 50, 0, 0⟩
        rotation := ⟨Real.pi / 2, 0, 0⟩
        userData := ⟨50, 50, 5, 200, .square⟩ }
      = .joint 15 ⟨0, -100, 0⟩ := by
    have hraw : jointMarker ⟨Real.pi, Real.cos, Real.sin⟩
        (step (⟨Real.pi, Real.cos, Real.sin⟩ : MathLib ℝ) .addTube State.mounted)
        { geometry := createTubeGeometry 50 50 5 200
          position := ⟨((0 : Nat) : ℝ) * 50, 0, 0⟩
          rotation := ⟨Real.pi / 2, 0, 0⟩
          userData := ⟨50, 50, 5, 200, .square⟩ }
        = .joint (max 50 50 * (3 / 10)) ((⟨((0 : Nat) : ℝ) * 50, 0, 0⟩ : Vector3 ℝ).add
            (((⟨0, 0, 1⟩ : Vector3 ℝ).applyEuler ⟨Real.pi, Real.cos, Real.sin⟩
              ⟨Real.pi / 2, 0, 0⟩).multiplyScalar (200 / 2))) := rfl
    rw [hraw, hd]
    simp only [Vector3.add, Vector3.multiplyScalar, SceneObject.joint.injEq, Vector3.mk.injEq,
      max_self]
    norm_num
  rw [hchild] at h1 h2
  rw [hjoint] at h2
  refine ⟨{ geometry := createTubeGeometry 50 50 5 200
            position := ⟨((0 : Nat) : ℝ) * 50, 0, 0⟩
            rotation := ⟨Real.pi / 2, 0, 0⟩
            userData := ⟨50, 50, 5, 200, .square⟩ },
    { geometry := createTubeGeometry 50 50 5 200
      position := ⟨100, -100, 0⟩
      rotation := ⟨Real.pi / 2, 0 + 90 * Real.pi / 180, 0⟩
      userData := ⟨50, 50, 5, 200, .square⟩ }, ⟨0, -100, 0⟩, 15, h1, h2, rfl, ?_, ?_, ?_, ?_, ?_, ?_⟩
  · rw [nearCapCentre_eq_position _ _ 50 50 5 200 rfl]
    simp
  · rw [farCapCentre_eq _ 50 50 5 200 rfl]
    simp only [hd, Vector3.add, Vector3.multiplyScalar, Vector3.mk.injEq]
    norm_num
  · rw [nearCapCentre_eq_position _ _ 50 50 5 200 rfl]
  · rw [farCapCentre_eq _ 50 50 5 200 rfl]
    simp only [hd2, Vector3.add, Vector3.multiplyScalar, Vector3.mk.injEq]
    norm_num
  · rw [farCapCentre_eq _ 50 50 5 200 rfl]
    simp only [hd, Vector3.add, Vector3.multiplyScalar, ne_eq, Vector3.mk.injEq]
    norm_num
  · rw [nearCapCentre_eq_position _ _ 50 50 5 200 rfl]
    simp only [ne_eq, Vector3.mk.injEq]
    norm_num

/-- The child's near end cap is centred half a child length beyond the joint
marker, along the child's forward axis. -/
theorem nearCapCentre_jointedTube (M : MathLib K) (s : State K) (parentTube : Tube K) :
    (jointedTube M s parentTube).nearCapCentre M
      = (parentTube.position.add
          (((⟨0, 0, 1⟩ : Vector3 K).applyEuler M parentTube.rotation).multiplyScalar
            (parentTube.userData.length / 2))).add
        (((⟨0, 0, 1⟩ : Vector3 K).applyEuler M
          (jointedTube M s parentTube).rotation).multiplyScalar (s.length / 2)) := by
  rw [nearCapCentre_eq_position M _ s.width s.height s.thickness s.length rfl]
  rfl

/-! ## Profile validation and the square type -/

/-- C9 at a concrete input: with the tube type `'square'`, width set to 100
and the height state still 50, `addTube` and `addJointedTube` pass height 50 to
`createTubeGeometry` and store height 50 beside width 100. -/
theorem square_tube_keeps_height :
    (run ⟨Real.pi, Real.cos, Real.sin⟩ [.setWidth 100, .addTube]
        (State.mounted : State ℝ)).tubes
      = [{ geometry := createTubeGeometry 100 50 5 200
           position := ⟨((0 : Nat) : ℝ) * 50, 0, 0⟩
           rotation := ⟨Real.pi / 2, 0, 0⟩
           userData := ⟨100, 50, 5, 200, .square⟩ }] ∧
    ((run ⟨Real.pi, Real.cos, Real.sin⟩ [.addTube, .setWidth 100, .addJointedTube]
        (State.mounted : State ℝ)).tubes.map fun t => (t.userData, t.geometry))
      = [(⟨50, 50, 5, 200, .square⟩, createTubeGeometry 50 50 5 200),
         (⟨100, 50, 5, 200, .square⟩, createTubeGeometry 100 50 5 200)] ∧
    (100 : ℝ) ≠ 50 := by
  refine ⟨rfl, rfl, by norm_num⟩

/-- The height handed to `createTubeGeometry` and stored in `userData` is the
`height` state, whatever the tube type. -/
theorem addTube_height (M : MathLib K) (s : State K) (children : List (SceneObject K))
    (hs : s.scene = some children) :
    ∃ tube : Tube K, (addTube M s).tubes = s.tubes ++ [tube] ∧
      tube.userData.type = s.tubeType ∧ tube.userData.width = s.width ∧
      tube.userData.height = s.height ∧
      tube.geometry = createTubeGeometry s.width s.height s.thickness s.length :=
  ⟨_, addTube_tubes M s children hs, rfl, rfl, rfl, rfl⟩


end Theorems

end TubeJoint
